import Mathlib

/-! Factory BE: the MongoDB initialisation script.

A shallow embedding of `docker/mongodb/init/01-init-mongodb.js`.

The script is a flat, top-to-bottom list of shell statements with no branching
and no `try`/`catch`.  It is embedded as a list of `Stmt` values, one per
statement of the source and in source order, together with a small model of the
shell that executes them against a database server.
-/

namespace InitMongo

/-! ## Documents passed by the script -/

/-- The value of one field of an index key document: `1`, `-1` or `"text"`. -/
inductive KeyKind
  | asc
  | desc
  | text
  deriving DecidableEq, Repr

/-- The key document of an index: its fields in source order. -/
abbrev KeyPattern := List (String × KeyKind)

/-- The options document of `createIndex`; a field the call does not pass is `none`. -/
structure IndexOptions where
  unique : Option Bool
  expireAfterSeconds : Option Nat
  deriving DecidableEq, Repr

/-- The options document of `createCollection`; a field the call does not pass is `none`. -/
structure CollectionOptions where
  capped : Option Bool
  size : Option Nat
  max : Option Nat
  deriving DecidableEq, Repr

/-- One element of the `roles` array of `createUser`. -/
structure Role where
  role : String
  db : String
  deriving DecidableEq, Repr

/-- The document passed to `createUser`. -/
structure UserDoc where
  user : String
  pwd : String
  roles : List Role
  deriving DecidableEq, Repr

/-- An index as declared: key document and options. -/
structure IndexSpec where
  key : KeyPattern
  options : IndexOptions
  deriving DecidableEq, Repr

/-! ## Statements of the script -/

/-- The statement forms that occur in the script. -/
inductive Stmt
  /-- The statement `db = db.getSiblingDB(name);`. -/
  | getSiblingDB (name : String)
  /-- The statement `db.createUser(doc);`. -/
  | createUser (doc : UserDoc)
  /-- The statement `db.createCollection(name, options);`. -/
  | createCollection (name : String) (options : CollectionOptions)
  /-- The statement `db.<coll>.createIndex(key, options);`, with `options` all
  `none` when the call passes no options document. -/
  | createIndex (coll : String) (key : KeyPattern) (options : IndexOptions)
  /-- The statement `print(msg);`. -/
  | print (msg : String)
  /-- The statement `db.<coll>.getIndexes().forEach(printjson);`. -/
  | printIndexes (coll : String)
  deriving DecidableEq, Repr

/-- The options `{ capped: false }`. -/
def uncapped : CollectionOptions := ⟨some false, none, none⟩

/-- No options document passed to `createIndex`. -/
def noOptions : IndexOptions := ⟨none, none⟩

/-- The options `{ expireAfterSeconds: n }`. -/
def ttl (n : Nat) : IndexOptions := ⟨none, some n⟩

/-- The options `{ unique: true }`. -/
def uniqueTrue : IndexOptions := ⟨some true, none⟩

/-- The user document of the `createUser` call (source lines 10-19). -/
def appUser : UserDoc :=
  { user := "factory_app"
    pwd := "factory_app_dev"
    roles := [{ role := "readWrite", db := "factory" }] }

/-- The last line of the script. -/
def successMessage : String := "MongoDB initialization completed successfully!"

/-- The header printed before the listings of the news collections. -/
def newsHeader : String := "Created indexes for news collections:"

/-- The header printed before the listings of the log collections. -/
def logHeader : String := "Created indexes for log collections:"

/-- The script, statement by statement (source lines 7-101). -/
def script : List Stmt :=
  [ .getSiblingDB "factory",
    .createUser appUser,
    .createCollection "application_logs" uncapped,
    .createIndex "application_logs" [("createdAt", .asc)] (ttl 2592000),
    .createCollection "user_activity_logs" uncapped,
    .createIndex "user_activity_logs" [("timestamp", .asc)] (ttl 7776000),
    .createCollection "error_logs" uncapped,
    .createIndex "error_logs" [("occurredAt", .asc)] (ttl 15552000),
    .createCollection "news_articles" uncapped,
    .createIndex "news_articles"
      [("title", .text), ("content", .text), ("summary", .text)] noOptions,
    .createIndex "news_articles" [("publishedAt", .desc)] noOptions,
    .createIndex "news_articles" [("category", .asc)] noOptions,
    .createIndex "news_articles" [("source", .asc)] noOptions,
    .createIndex "news_articles" [("url", .asc)] uniqueTrue,
    .createCollection "media_outlets" uncapped,
    .createIndex "media_outlets" [("name", .asc)] uniqueTrue,
    .createIndex "media_outlets" [("domain", .asc)] uniqueTrue,
    .createCollection "journalists" uncapped,
    .createIndex "journalists" [("name", .asc)] noOptions,
    .createIndex "journalists" [("mediaOutletId", .asc)] noOptions,
    .createCollection "crawling_metadata" uncapped,
    .createIndex "crawling_metadata" [("source", .asc), ("lastCrawledAt", .desc)] noOptions,
    .print newsHeader,
    .printIndexes "news_articles",
    .printIndexes "media_outlets",
    .printIndexes "journalists",
    .printIndexes "crawling_metadata",
    .print logHeader,
    .printIndexes "application_logs",
    .printIndexes "user_activity_logs",
    .printIndexes "error_logs",
    .print successMessage ]

/-! ## What the script declares, read off its statements -/

/-- The database names the script switches to, in order. -/
def targetDBs : List Stmt → List String
  | [] => []
  | .getSiblingDB d :: rest => d :: targetDBs rest
  | _ :: rest => targetDBs rest

/-- The user documents passed to `createUser`, in order. -/
def createdUsers : List Stmt → List UserDoc
  | [] => []
  | .createUser u :: rest => u :: createdUsers rest
  | _ :: rest => createdUsers rest

/-- The `createCollection` calls: name and options, in order. -/
def createCollectionCalls : List Stmt → List (String × CollectionOptions)
  | [] => []
  | .createCollection n o :: rest => (n, o) :: createCollectionCalls rest
  | _ :: rest => createCollectionCalls rest

/-- The names passed to `createCollection`, in order. -/
def createdNames (l : List Stmt) : List String :=
  (createCollectionCalls l).map Prod.fst

/-- The `createIndex` calls: collection and declared index, in order. -/
def createIndexCalls : List Stmt → List (String × IndexSpec)
  | [] => []
  | .createIndex c k o :: rest => (c, ⟨k, o⟩) :: createIndexCalls rest
  | _ :: rest => createIndexCalls rest

/-- The indexes the script declares on collection `c`, in order. -/
def declaredIndexes (l : List Stmt) (c : String) : List IndexSpec :=
  ((createIndexCalls l).filter fun p => p.1 == c).map Prod.snd

/-- The collections listed with `getIndexes().forEach(printjson)`, in order. -/
def listedNames : List Stmt → List String
  | [] => []
  | .printIndexes c :: rest => c :: listedNames rest
  | _ :: rest => listedNames rest

/-- Whether a key document has a `"text"` field. -/
def isTextKey (k : KeyPattern) : Bool :=
  k.any fun p => p.2 == KeyKind.text

/-- Whether the statement is a create statement (user, collection or index). -/
def Stmt.isCreate : Stmt → Bool
  | .createUser _ => true
  | .createCollection _ _ => true
  | .createIndex _ _ _ => true
  | _ => false

/-- Whether the statement is an index listing. -/
def Stmt.isListing : Stmt → Bool
  | .printIndexes _ => true
  | _ => false

/-- The listings at the head of the list, up to the first statement that is
not a listing. -/
def leadingListings : List Stmt → List String
  | .printIndexes c :: rest => c :: leadingListings rest
  | _ => []

/-- Every `print` header with the listings that directly follow it. -/
def listingGroups : List Stmt → List (String × List String)
  | [] => []
  | .print h :: rest => (h, leadingListings rest) :: listingGroups rest
  | _ :: rest => listingGroups rest

/-! ## The server and the shell

The database engine and the shell are not part of the repository; the script
only calls them.  The definitions below model them as the specification
describes them. -/

/-- A collection of the server: its database, name, creation options and the
indexes declared on it with `createIndex` (the engine's built-in `_id` index
is not tracked). -/
structure Collection where
  db : String
  name : String
  options : CollectionOptions
  indexes : List IndexSpec
  deriving DecidableEq, Repr

/-- A user of the server: the database it was created in and its document. -/
structure User where
  db : String
  doc : UserDoc
  deriving DecidableEq, Repr

/-- The schema catalogue of the server. -/
structure Server where
  users : List User
  collections : List Collection
  deriving DecidableEq, Repr

/-- A clean server: no user, no collection. -/
def Server.clean : Server := ⟨[], []⟩

/-- One piece of console output: a printed line, or the index listing of a
collection. -/
inductive Output
  | line (msg : String)
  | listing (coll : String) (indexes : List IndexSpec)
  deriving DecidableEq, Repr

/-- The shell: the value of its `db` variable, the server it is connected to
and the console output so far. -/
structure Shell where
  db : String
  server : Server
  out : List Output
  deriving DecidableEq, Repr

/-- The shell at the start of the script: `db` names the connection's default
database and nothing has been printed. -/
def Shell.start (srv : Server) (db0 : String) : Shell := ⟨db0, srv, []⟩

/-- The faults an operation can raise: the ones the modelled engine raises, and
any other failure of the execution environment, tagged with its message. -/
inductive Fault
  | userExists
  | collectionExists
  | duplicateIndex
  | secondTextIndex
  | other (message : String)
  deriving DecidableEq, Repr

/-- Whether database `d` has a user named `n`. -/
def Server.hasUser (srv : Server) (d n : String) : Bool :=
  srv.users.any fun u => u.db == d && u.doc.user == n

/-- Whether database `d` has a collection named `n`. -/
def Server.hasCollection (srv : Server) (d n : String) : Bool :=
  srv.collections.any fun c => c.db == d && c.name == n

/-- The indexes declared on collection `n` of database `d` (none when the
collection does not exist). -/
def Server.indexesOf (srv : Server) (d n : String) : List IndexSpec :=
  match srv.collections.find? fun c => c.db == d && c.name == n with
  | some c => c.indexes
  | none => []

/-- The names of the collections of database `d`, in creation order. -/
def Server.collectionNames (srv : Server) (d : String) : List String :=
  (srv.collections.filter fun c => c.db == d).map Collection.name

/-- Modelled from the spec: the engine's `createUser`, which is not in the
repository.  It fails when the database already has a user of that name
("user already exists") and otherwise records the user. -/
def Server.createUser (srv : Server) (d : String) (u : UserDoc) : Except Fault Server :=
  if srv.hasUser d u.user then .error .userExists
  else .ok { srv with users := srv.users ++ [⟨d, u⟩] }

/-- Modelled from the spec: the engine's `createCollection`, which is not in
the repository.  It fails when the database already has a collection of that
name and otherwise records the collection, without indexes. -/
def Server.createCollection (srv : Server) (d n : String) (o : CollectionOptions) :
    Except Fault Server :=
  if srv.hasCollection d n then .error .collectionExists
  else .ok { srv with collections := srv.collections ++ [⟨d, n, o, []⟩] }

/-- Modelled from the spec: adding an index to a collection.  It fails on a
duplicate index (one with the same key document) and on a second text index,
and otherwise appends the index. -/
def Collection.addIndex (c : Collection) (ix : IndexSpec) : Except Fault Collection :=
  if c.indexes.any (fun j => j.key == ix.key) then .error .duplicateIndex
  else if isTextKey ix.key && c.indexes.any (fun j => isTextKey j.key) then
    .error .secondTextIndex
  else .ok { c with indexes := c.indexes ++ [ix] }

/-- Modelled from the spec: the engine's `createIndex`, which is not in the
repository.  On a collection that does not exist it creates the collection
implicitly, with no options, holding the index; on an existing collection it
adds the index with `Collection.addIndex`. -/
def Server.createIndex (srv : Server) (d n : String) (ix : IndexSpec) : Except Fault Server :=
  match srv.collections.find? fun c => c.db == d && c.name == n with
  | none => .ok { srv with collections := srv.collections ++ [⟨d, n, ⟨none, none, none⟩, [ix]⟩] }
  | some c =>
    match c.addIndex ix with
    | .error e => .error e
    | .ok c2 =>
      .ok { srv with
            collections := srv.collections.map fun x =>
              if x.db == d && x.name == n then c2 else x }

/-- Modelled from the spec: the shell executing one statement.  The create
statements act on the database named by `db` and raise the engine's fault;
`getSiblingDB` rebinds `db`; the print statements append to the console and
never fail. -/
def exec (st : Stmt) (s : Shell) : Except Fault Shell :=
  match st with
  | .getSiblingDB d => .ok { s with db := d }
  | .createUser u =>
    match s.server.createUser s.db u with
    | .error e => .error e
    | .ok srv => .ok { s with server := srv }
  | .createCollection n o =>
    match s.server.createCollection s.db n o with
    | .error e => .error e
    | .ok srv => .ok { s with server := srv }
  | .createIndex c k o =>
    match s.server.createIndex s.db c ⟨k, o⟩ with
    | .error e => .error e
    | .ok srv => .ok { s with server := srv }
  | .print m => .ok { s with out := s.out ++ [.line m] }
  | .printIndexes c => .ok { s with out := s.out ++ [.listing c (s.server.indexesOf s.db c)] }

/-- How a run of a statement list ends: every statement succeeded, or
statement number `k` (counting from 0) raised `e` in shell state `s`. -/
inductive Outcome
  | completed (s : Shell)
  | halted (k : Nat) (e : Fault) (s : Shell)
  deriving DecidableEq, Repr

/-- Modelled from the spec: the shell running statements top to bottom.  A
fault is not handled by the script, so it ends the run at the statement that
raised it, in the state reached before that statement. -/
def run : List Stmt → Shell → Outcome
  | [], s => .completed s
  | st :: rest, s =>
    match exec st s with
    | .error e => .halted 0 e s
    | .ok s2 =>
      match run rest s2 with
      | .halted k e t => .halted (k + 1) e t
      | .completed t => .completed t

/-- The unique indexes the statements declare: collection and key document. -/
def uniqueIndexes (l : List Stmt) : List (String × KeyPattern) :=
  ((createIndexCalls l).filter fun p => p.2.options.unique == some true).map
    fun p => (p.1, p.2.key)

/-- The TTL indexes the statements declare: collection, key document and
`expireAfterSeconds`. -/
def ttlIndexes (l : List Stmt) : List (String × KeyPattern × Nat) :=
  (createIndexCalls l).filterMap fun p =>
    p.2.options.expireAfterSeconds.map fun n => (p.1, p.2.key, n)

/-- The collection a `createIndex` statement targets. -/
def indexTarget : Stmt → Option String
  | .createIndex c _ _ => some c
  | _ => none


/-- The shell state in which a run ended. -/
def Outcome.shell : Outcome → Shell
  | .completed s => s
  | .halted _ _ s => s

/-- The shell state after the script has run against a clean server. -/
def cleanResult : Shell :=
  (run script (Shell.start Server.clean "factory")).shell

/-! ## The script against an arbitrary execution environment

The spec leaves open which operations fail and when: "any operation failure
propagates as an unhandled fault from the execution environment".  `Host`
makes the environment a parameter, so that statements about failure hold for
every engine and shell, not only for the modelled one. -/

/-- An execution environment: what each operation the script calls does to the
server, or the fault it raises. -/
structure Host where
  getSiblingDB : String → Except Fault Unit
  createUser : Server → String → UserDoc → Except Fault Server
  createCollection : Server → String → String → CollectionOptions → Except Fault Server
  createIndex : Server → String → String → IndexSpec → Except Fault Server
  getIndexes : Server → String → String → Except Fault (List IndexSpec)
  print : String → Except Fault Unit

/-- The modelled engine and shell as an execution environment. -/
def Host.standard : Host where
  getSiblingDB _ := .ok ()
  createUser := Server.createUser
  createCollection := Server.createCollection
  createIndex := Server.createIndex
  getIndexes srv d n := .ok (srv.indexesOf d n)
  print _ := .ok ()

/-- The modelled environment, except that the operation of statement `st`
raises the fault `e`. -/
def Host.failingOn (st : Stmt) (e : Fault) : Host where
  getSiblingDB d := if st = .getSiblingDB d then .error e else .ok ()
  createUser srv d u := if st = .createUser u then .error e else srv.createUser d u
  createCollection srv d n o :=
    if st = .createCollection n o then .error e else srv.createCollection d n o
  createIndex srv d n ix :=
    if st = .createIndex n ix.key ix.options then .error e else srv.createIndex d n ix
  getIndexes srv d n := if st = .printIndexes n then .error e else .ok (srv.indexesOf d n)
  print m := if st = .print m then .error e else .ok ()

/-- Modelled from the spec: the shell executing one statement in environment
`env`.  The statement calls its operation; a fault of the operation is the
fault of the statement, and otherwise the shell takes over the result:
`getSiblingDB` rebinds `db`, a create statement replaces the server state, a
print statement appends to the console. -/
def execWith (env : Host) (st : Stmt) (s : Shell) : Except Fault Shell :=
  match st with
  | .getSiblingDB d =>
    match env.getSiblingDB d with
    | .error e => .error e
    | .ok _ => .ok { s with db := d }
  | .createUser u =>
    match env.createUser s.server s.db u with
    | .error e => .error e
    | .ok srv => .ok { s with server := srv }
  | .createCollection n o =>
    match env.createCollection s.server s.db n o with
    | .error e => .error e
    | .ok srv => .ok { s with server := srv }
  | .createIndex c k o =>
    match env.createIndex s.server s.db c ⟨k, o⟩ with
    | .error e => .error e
    | .ok srv => .ok { s with server := srv }
  | .print m =>
    match env.print m with
    | .error e => .error e
    | .ok _ => .ok { s with out := s.out ++ [.line m] }
  | .printIndexes c =>
    match env.getIndexes s.server s.db c with
    | .error e => .error e
    | .ok ixs => .ok { s with out := s.out ++ [.listing c ixs] }

/-- Modelled from the spec: the shell running statements top to bottom in
environment `env`.  The script handles no fault, so a fault ends the run at
the statement that raised it, in the state reached before that statement. -/
def runWith (env : Host) : List Stmt → Shell → Outcome
  | [], s => .completed s
  | st :: rest, s =>
    match execWith env st s with
    | .error e => .halted 0 e s
    | .ok s2 =>
      match runWith env rest s2 with
      | .halted k e t => .halted (k + 1) e t
      | .completed t => .completed t

/-- The fault of a unique index build that meets duplicate values. -/
def duplicateKey : Fault := .other "E11000 duplicate key error"

/-- The modelled environment in which building the unique index on
`news_articles.url` raises `duplicateKey`. -/
def Host.urlIndexFails : Host :=
  Host.failingOn (.createIndex "news_articles" [("url", .asc)] uniqueTrue) duplicateKey

/-! ## General facts about the shell model -/

theorem run_nil (s : Shell) : run [] s = .completed s := rfl

theorem run_cons_error {st : Stmt} {s : Shell} {e : Fault} (rest : List Stmt)
    (h : exec st s = .error e) : run (st :: rest) s = .halted 0 e s := by
  simp [run, h]

theorem run_cons_ok {st : Stmt} {s s2 : Shell} (rest : List Stmt)
    (h : exec st s = .ok s2) :
    run (st :: rest) s =
      match run rest s2 with
      | .halted k e t => .halted (k + 1) e t
      | .completed t => .completed t := by
  simp [run, h]

/-- Adding an index leaves the database and the name of a collection alone. -/
theorem Collection.addIndex_ok {c c2 : Collection} {ix : IndexSpec}
    (h : c.addIndex ix = .ok c2) : c2.db = c.db ∧ c2.name = c.name := by
  unfold Collection.addIndex at h
  split at h
  · cases h
  · split at h
    · cases h
    · cases h; exact ⟨rfl, rfl⟩

/-- The engine's `createIndex` removes no collection. -/
theorem Server.createIndex_hasCollection {srv srv2 : Server} {d n : String} {ix : IndexSpec}
    (h : srv.createIndex d n ix = .ok srv2) (d2 n2 : String)
    (hc : srv.hasCollection d2 n2 = true) : srv2.hasCollection d2 n2 = true := by
  unfold Server.createIndex at h
  split at h
  · cases h
    simp only [Server.hasCollection, List.any_append, Bool.or_eq_true] at hc ⊢
    exact Or.inl hc
  · rename_i c hfind
    split at h
    · cases h
    · rename_i c2 hadd
      cases h
      obtain ⟨hdb, hname⟩ := Collection.addIndex_ok hadd
      have hp := List.find?_some hfind
      simp only [Bool.and_eq_true, beq_iff_eq] at hp
      simp only [Server.hasCollection, List.any_eq_true, Bool.and_eq_true, beq_iff_eq,
        List.mem_map] at hc ⊢
      obtain ⟨x, hx, hxd, hxn⟩ := hc
      by_cases hm : x.db = d ∧ x.name = n
      · refine ⟨c2, ⟨x, hx, by simp [hm]⟩, ?_, ?_⟩
        · rw [hdb, hp.1, ← hm.1, hxd]
        · rw [hname, hp.2, ← hm.2, hxn]
      · refine ⟨x, ⟨x, hx, ?_⟩, hxd, hxn⟩
        have : ¬ (x.db = d ∧ x.name = n) := hm
        simp [this]

/-- No statement removes a collection. -/
theorem exec_hasCollection {st : Stmt} {s s2 : Shell} (h : exec st s = .ok s2)
    (d n : String) (hc : s.server.hasCollection d n = true) :
    s2.server.hasCollection d n = true := by
  cases st <;> simp only [exec] at h
  case getSiblingDB d0 => cases h; exact hc
  case createUser u =>
    split at h
    · cases h
    · rename_i srv hsrv
      cases h
      unfold Server.createUser at hsrv
      split at hsrv
      · cases hsrv
      · cases hsrv; exact hc
  case createCollection n0 o =>
    split at h
    · cases h
    · rename_i srv hsrv
      cases h
      unfold Server.createCollection at hsrv
      split at hsrv
      · cases hsrv
      · cases hsrv
        simp only [Server.hasCollection, List.any_append, Bool.or_eq_true] at hc ⊢
        exact Or.inl hc
  case createIndex c k o =>
    split at h
    · cases h
    · rename_i srv hsrv
      cases h
      exact Server.createIndex_hasCollection hsrv d n hc
  case print m => cases h; exact hc
  case printIndexes c => cases h; exact hc

/-- Only `getSiblingDB` rebinds the shell's `db` variable. -/
theorem exec_db {st : Stmt} {s s2 : Shell} (h : exec st s = .ok s2)
    (hst : targetDBs [st] = []) : s2.db = s.db := by
  cases st <;> simp only [exec] at h
  case getSiblingDB d0 => simp [targetDBs] at hst
  case createUser u =>
    split at h
    · cases h
    · cases h; rfl
  case createCollection n0 o =>
    split at h
    · cases h
    · cases h; rfl
  case createIndex c k o =>
    split at h
    · cases h
    · cases h; rfl
  case print m => cases h; rfl
  case printIndexes c => cases h; rfl

theorem targetDBs_cons_nil {st : Stmt} {rest : List Stmt} (h : targetDBs (st :: rest) = []) :
    targetDBs [st] = [] ∧ targetDBs rest = [] := by
  cases st <;> simp_all [targetDBs]

/-- A list of statements that never rebinds `db` and creates a collection
that the current database already has cannot complete. -/
theorem run_existing_collection (l : List Stmt) :
    ∀ (s : Shell) (n : String), targetDBs l = [] → n ∈ createdNames l →
      s.server.hasCollection s.db n = true → ∃ k e t, run l s = .halted k e t := by
  induction l with
  | nil => intro s n _ hn; simp [createdNames, createCollectionCalls] at hn
  | cons st rest ih =>
    intro s n hdb hn hc
    obtain ⟨hdb1, hdb2⟩ := targetDBs_cons_nil hdb
    cases hx : exec st s with
    | error e => exact ⟨0, e, s, run_cons_error rest hx⟩
    | ok s2 =>
      have hc2 := exec_hasCollection hx s.db n hc
      have hd2 := exec_db hx hdb1
      have hn2 : n ∈ createdNames rest := by
        cases st
        case createCollection n0 o =>
          simp only [createdNames, createCollectionCalls, List.map_cons, List.mem_cons] at hn
          rcases hn with hn | hn
          · subst hn
            simp [exec, Server.createCollection, hc] at hx
          · exact hn
        all_goals simpa [createdNames, createCollectionCalls] using hn
      rw [← hd2] at hc2
      obtain ⟨k, e, t, hr⟩ := ih s2 n hdb2 hn2 hc2
      exact ⟨k + 1, e, t, by rw [run_cons_ok rest hx, hr]⟩

/-! ## The run on a clean server -/

set_option maxRecDepth 100000

/-- The first statement rebinds `db`, so the run does not depend on the
database the shell started in. -/
theorem run_script_db (srv : Server) (db0 : String) :
    run script (Shell.start srv db0) = run script (Shell.start srv "factory") := rfl

/-- On a clean server every statement of the script succeeds. -/
theorem run_clean (db0 : String) :
    run script (Shell.start Server.clean db0) = .completed cleanResult := by
  rw [run_script_db]
  decide

/-! ## Runs in an arbitrary environment -/

theorem runWith_cons_error {env : Host} {st : Stmt} {s : Shell} {e : Fault}
    (rest : List Stmt) (h : execWith env st s = .error e) :
    runWith env (st :: rest) s = .halted 0 e s := by
  simp [runWith, h]

theorem runWith_cons_ok {env : Host} {st : Stmt} {s s2 : Shell} (rest : List Stmt)
    (h : execWith env st s = .ok s2) :
    runWith env (st :: rest) s =
      match runWith env rest s2 with
      | .halted k e t => .halted (k + 1) e t
      | .completed t => .completed t := by
  simp [runWith, h]

/-- In the modelled environment a statement does what `exec` does. -/
theorem execWith_standard (st : Stmt) (s : Shell) :
    execWith Host.standard st s = exec st s := by
  cases st <;> rfl

/-- In the modelled environment a run is the run of `run`. -/
theorem runWith_standard (l : List Stmt) :
    ∀ s : Shell, runWith Host.standard l s = run l s := by
  induction l with
  | nil => intro s; rfl
  | cons st rest ih =>
    intro s
    simp only [runWith, run, execWith_standard]
    cases exec st s with
    | error e => rfl
    | ok s2 => simp only [ih]

/-- A run halts at statement `k` with fault `e` in state `t` exactly when the
statements before `k` all succeed and produce `t`, and statement `k` raises
`e` in `t`. -/
theorem runWith_halted_iff (env : Host) (l : List Stmt) :
    ∀ (s : Shell) (k : Nat) (e : Fault) (t : Shell),
      runWith env l s = .halted k e t ↔
        runWith env (l.take k) s = .completed t ∧
          ∃ st, l[k]? = some st ∧ execWith env st t = .error e := by
  induction l with
  | nil =>
    intro s k e t
    constructor
    · intro h; simp [runWith] at h
    · rintro ⟨_, st, h2, _⟩; simp at h2
  | cons st rest ih =>
    intro s k e t
    cases hx : execWith env st s with
    | error e2 =>
      rw [runWith_cons_error rest hx]
      constructor
      · intro h
        cases h
        exact ⟨rfl, st, by simp, hx⟩
      · rintro ⟨h1, st2, h2, h3⟩
        cases k with
        | zero =>
          simp only [List.take_zero, runWith, Outcome.completed.injEq] at h1
          subst h1
          simp only [List.getElem?_cons_zero, Option.some.injEq] at h2
          subst h2
          rw [hx] at h3
          cases h3
          rfl
        | succ k2 =>
          rw [List.take_succ_cons, runWith_cons_error _ hx] at h1
          cases h1
    | ok s2 =>
      rw [runWith_cons_ok rest hx]
      constructor
      · intro h
        cases hr : runWith env rest s2 with
        | completed t2 => rw [hr] at h; cases h
        | halted k2 e2 t2 =>
          rw [hr] at h
          cases h
          obtain ⟨h1, st2, h2, h3⟩ := (ih s2 k2 e t).mp hr
          refine ⟨?_, st2, by simpa using h2, h3⟩
          rw [List.take_succ_cons, runWith_cons_ok _ hx, h1]
      · rintro ⟨h1, st2, h2, h3⟩
        cases k with
        | zero =>
          simp only [List.take_zero, runWith, Outcome.completed.injEq] at h1
          subst h1
          simp only [List.getElem?_cons_zero, Option.some.injEq] at h2
          subst h2
          rw [hx] at h3
          cases h3
        | succ k2 =>
          rw [List.take_succ_cons, runWith_cons_ok _ hx] at h1
          have h1b : runWith env (rest.take k2) s2 = .completed t := by
            cases hr : runWith env (rest.take k2) s2 with
            | halted k3 e3 t3 => rw [hr] at h1; cases h1
            | completed t3 => rw [hr] at h1; cases h1; rfl
          have h2b : rest[k2]? = some st2 := by simpa using h2
          rw [(ih s2 k2 e t).mpr ⟨h1b, st2, h2b, h3⟩]

/-- Whatever the environment, every printed line of a completed run was either
on the console before or is printed by one of the statements. -/
theorem runWith_completed_line (env : Host) (l : List Stmt) :
    ∀ (s t : Shell) (m : String), runWith env l s = .completed t →
      Output.line m ∈ t.out → Output.line m ∈ s.out ∨ Stmt.print m ∈ l := by
  induction l with
  | nil => intro s t m h hm; simp [runWith] at h; subst h; exact Or.inl hm
  | cons st rest ih =>
    intro s t m h hm
    cases hx : execWith env st s with
    | error e2 => rw [runWith_cons_error rest hx] at h; cases h
    | ok s2 =>
      rw [runWith_cons_ok rest hx] at h
      cases hr : runWith env rest s2 with
      | halted k2 e2 t2 => rw [hr] at h; cases h
      | completed t2 =>
        rw [hr] at h
        cases h
        rcases ih s2 t m hr hm with h1 | h1
        · cases st <;> simp only [execWith] at hx
          case getSiblingDB d =>
            split at hx
            · cases hx
            · cases hx; exact Or.inl h1
          case createUser u =>
            split at hx
            · cases hx
            · cases hx; exact Or.inl h1
          case createCollection n o =>
            split at hx
            · cases hx
            · cases hx; exact Or.inl h1
          case createIndex c k o =>
            split at hx
            · cases hx
            · cases hx; exact Or.inl h1
          case print m2 =>
            split at hx
            · cases hx
            · cases hx
              simp only [List.mem_append, List.mem_singleton, Output.line.injEq] at h1
              rcases h1 with h1 | h1
              · exact Or.inl h1
              · subst h1; exact Or.inr (List.mem_cons_self _ _)
          case printIndexes c =>
            split at hx
            · cases hx
            · cases hx
              simp only [List.mem_append, List.mem_singleton] at h1
              rcases h1 with h1 | h1
              · exact Or.inl h1
              · cases h1
        · exact Or.inr (List.mem_cons_of_mem _ h1)

/-- A completed run completes on every initial segment of the statements. -/
theorem runWith_completed_take (env : Host) (l : List Stmt) :
    ∀ (s t : Shell) (k : Nat), runWith env l s = .completed t →
      ∃ t2, runWith env (l.take k) s = .completed t2 := by
  induction l with
  | nil => intro s t k _; exact ⟨s, by simp [runWith]⟩
  | cons st rest ih =>
    intro s t k h
    cases k with
    | zero => exact ⟨s, by simp [runWith]⟩
    | succ k2 =>
      cases hx : execWith env st s with
      | error e2 => rw [runWith_cons_error rest hx] at h; cases h
      | ok s2 =>
        rw [runWith_cons_ok rest hx] at h
        cases hr : runWith env rest s2 with
        | halted k3 e3 t3 => rw [hr] at h; cases h
        | completed t3 =>
          obtain ⟨t2, h2⟩ := ih s2 t3 k2 hr
          exact ⟨t2, by rw [List.take_succ_cons, runWith_cons_ok _ hx, h2]⟩

/-- The operation singled out by `Host.failingOn` raises the chosen fault. -/
theorem execWith_failingOn_self (st : Stmt) (e : Fault) (s : Shell) :
    execWith (Host.failingOn st e) st s = .error e := by
  cases st <;> simp [execWith, Host.failingOn]

/-- Every other statement behaves as in the modelled environment. -/
theorem execWith_failingOn_ne {st st2 : Stmt} (e : Fault) (s : Shell) (h : st ≠ st2) :
    execWith (Host.failingOn st e) st2 s = execWith Host.standard st2 s := by
  cases st2 <;> simp [execWith, Host.failingOn, Host.standard, h]

/-- Statements other than the singled-out one run as in the modelled
environment. -/
theorem runWith_failingOn_not_mem (st : Stmt) (e : Fault) (l : List Stmt) :
    ∀ s : Shell, st ∉ l → runWith (Host.failingOn st e) l s = runWith Host.standard l s := by
  induction l with
  | nil => intro s _; rfl
  | cons st2 rest ih =>
    intro s hmem
    have hne : st ≠ st2 := fun h => hmem (h ▸ List.mem_cons_self _ _)
    have hrest : st ∉ rest := fun h => hmem (List.mem_cons_of_mem _ h)
    simp only [runWith, execWith_failingOn_ne e s hne]
    cases execWith Host.standard st2 s with
    | error e2 => rfl
    | ok s2 => simp only [ih s2 hrest]

/-! ## The claims -/

/-- C1 (as stated, refuted): the names passed to `createCollection` do not
have 8 distinct elements, and the run on a clean server does not leave 8
collections in the `factory` database. -/
theorem C1_not_eight_collections :
    (createdNames script).toFinset.card ≠ 8 ∧
    ¬ ∃ t, run script (Shell.start Server.clean "test") = .completed t ∧
        (t.server.collectionNames "factory").length = 8 := by
  refine ⟨by decide, ?_⟩
  rintro ⟨t, h, h8⟩
  rw [run_clean] at h
  cases h
  revert h8
  decide

/-- C1 (amended): the script passes exactly 7 pairwise distinct names to
`createCollection`, and running it against a clean server leaves exactly these
7 collections, all in the `factory` database, and no other collection. -/
theorem C1_seven_collections (db0 : String) :
    createdNames script =
      ["application_logs", "user_activity_logs", "error_logs", "news_articles",
       "media_outlets", "journalists", "crawling_metadata"] ∧
    (createdNames script).Nodup ∧
    (createdNames script).toFinset.card = 7 ∧
    ∃ t, run script (Shell.start Server.clean db0) = .completed t ∧
      t.server.collections.map (fun c => (c.db, c.name)) =
        (createdNames script).map (fun n => ("factory", n)) ∧
      t.server.collectionNames "factory" = createdNames script :=
  ⟨by decide, by decide, by decide, cleanResult, run_clean db0, by decide, by decide⟩

/-- C2: the indexes the script declares are exactly those of the data-model
table, collection by collection, no index is declared on any other collection,
the unique indexes are exactly `news_articles.url`, `media_outlets.name` and
`media_outlets.domain`, the TTL indexes are exactly the three on the log
collections, and after a run on a clean server every collection holds exactly
the indexes declared on it. -/
theorem C2_declared_indexes (db0 : String) :
    declaredIndexes script "application_logs" = [⟨[("createdAt", .asc)], ttl 2592000⟩] ∧
    declaredIndexes script "user_activity_logs" = [⟨[("timestamp", .asc)], ttl 7776000⟩] ∧
    declaredIndexes script "error_logs" = [⟨[("occurredAt", .asc)], ttl 15552000⟩] ∧
    declaredIndexes script "news_articles" =
      [⟨[("title", .text), ("content", .text), ("summary", .text)], noOptions⟩,
       ⟨[("publishedAt", .desc)], noOptions⟩,
       ⟨[("category", .asc)], noOptions⟩,
       ⟨[("source", .asc)], noOptions⟩,
       ⟨[("url", .asc)], uniqueTrue⟩] ∧
    declaredIndexes script "media_outlets" =
      [⟨[("name", .asc)], uniqueTrue⟩, ⟨[("domain", .asc)], uniqueTrue⟩] ∧
    declaredIndexes script "journalists" =
      [⟨[("name", .asc)], noOptions⟩, ⟨[("mediaOutletId", .asc)], noOptions⟩] ∧
    declaredIndexes script "crawling_metadata" =
      [⟨[("source", .asc), ("lastCrawledAt", .desc)], noOptions⟩] ∧
    (∀ p ∈ createIndexCalls script, p.1 ∈ createdNames script) ∧
    (createIndexCalls script).length = 13 ∧
    uniqueIndexes script =
      [("news_articles", [("url", .asc)]),
       ("media_outlets", [("name", .asc)]),
       ("media_outlets", [("domain", .asc)])] ∧
    (ttlIndexes script).map (fun p => (p.1, p.2.1)) =
      [("application_logs", [("createdAt", .asc)]),
       ("user_activity_logs", [("timestamp", .asc)]),
       ("error_logs", [("occurredAt", .asc)])] ∧
    ∃ t, run script (Shell.start Server.clean db0) = .completed t ∧
      t.server.collections.map (fun c => (c.db, c.name, c.indexes)) =
        (createdNames script).map (fun n => ("factory", n, declaredIndexes script n)) :=
  ⟨by decide, by decide, by decide, by decide, by decide, by decide, by decide, by decide,
    by decide, by decide, by decide, cleanResult, run_clean db0, by decide⟩

/-- C3: the TTL indexes are `createdAt` on `application_logs` with
`expireAfterSeconds` 2592000, `timestamp` on `user_activity_logs` with 7776000
and `occurredAt` on `error_logs` with 15552000, in the script and in the
catalogue after a run on a clean server. -/
theorem C3_ttl_seconds (db0 : String) :
    ttlIndexes script =
      [("application_logs", [("createdAt", .asc)], 2592000),
       ("user_activity_logs", [("timestamp", .asc)], 7776000),
       ("error_logs", [("occurredAt", .asc)], 15552000)] ∧
    ∃ t, run script (Shell.start Server.clean db0) = .completed t ∧
      t.server.indexesOf "factory" "application_logs" =
        [⟨[("createdAt", .asc)], ⟨none, some 2592000⟩⟩] ∧
      t.server.indexesOf "factory" "user_activity_logs" =
        [⟨[("timestamp", .asc)], ⟨none, some 7776000⟩⟩] ∧
      t.server.indexesOf "factory" "error_logs" =
        [⟨[("occurredAt", .asc)], ⟨none, some 15552000⟩⟩] :=
  ⟨by decide, cleanResult, run_clean db0, by decide, by decide, by decide⟩

/-- C4: the script switches to one database, `factory`, before anything else,
calls `createUser` once, for `factory_app`, whose role list is the single role
`readWrite` on that same database; after a run on a clean server the only user
is `factory_app` of `factory`, and every collection is in `factory` too. -/
theorem C4_single_scoped_user (db0 : String) :
    script.head? = some (.getSiblingDB "factory") ∧
    (∃ d u, targetDBs script = [d] ∧ createdUsers script = [u] ∧
      u.user = "factory_app" ∧ u.roles = [⟨"readWrite", d⟩] ∧ d = "factory") ∧
    ∃ t, run script (Shell.start Server.clean db0) = .completed t ∧
      t.db = "factory" ∧
      t.server.users = [⟨"factory", appUser⟩] ∧
      (∀ u ∈ t.server.users, u.doc.roles = [⟨"readWrite", u.db⟩]) ∧
      (∀ c ∈ t.server.collections, c.db = "factory") :=
  ⟨by decide, ⟨"factory", appUser, by decide, by decide, by decide, by decide, rfl⟩,
    cleanResult, run_clean db0, by decide, by decide, by decide, by decide⟩

/-- C5: the script is not re-entrant.  On every server where the user
`factory_app` of `factory` or one of the script's collections in `factory`
already exists, the run halts with a fault instead of completing. -/
theorem C5_not_reentrant (srv : Server) (db0 : String)
    (h : (∃ u ∈ srv.users, u.db = "factory" ∧ u.doc.user = "factory_app") ∨
         (∃ c ∈ srv.collections, c.db = "factory" ∧ c.name ∈ createdNames script)) :
    ∃ k e t, run script (Shell.start srv db0) = .halted k e t ∧
      ∀ t2, run script (Shell.start srv db0) ≠ .completed t2 := by
  have hscript : script = .getSiblingDB "factory" :: .createUser appUser :: script.drop 2 := rfl
  have key : ∃ k e t, run script (Shell.start srv db0) = .halted k e t := by
    have h1 : exec (.getSiblingDB "factory") (Shell.start srv db0) = .ok ⟨"factory", srv, []⟩ :=
      rfl
    rw [hscript, run_cons_ok _ h1]
    cases hu : srv.hasUser "factory" "factory_app" with
    | true =>
      have h2 : exec (.createUser appUser) ⟨"factory", srv, []⟩ = .error .userExists := by
        have hu2 : srv.hasUser "factory" appUser.user = true := hu
        simp [exec, Server.createUser, hu2]
      rw [run_cons_error _ h2]
      exact ⟨1, .userExists, _, rfl⟩
    | false =>
      have h2 : exec (.createUser appUser) ⟨"factory", srv, []⟩ =
          .ok ⟨"factory", { srv with users := srv.users ++ [⟨"factory", appUser⟩] }, []⟩ := by
        have hu2 : srv.hasUser "factory" appUser.user = false := hu
        simp [exec, Server.createUser, hu2]
      rw [run_cons_ok _ h2]
      rcases h with ⟨u, hu1, hu2, hu3⟩ | ⟨c, hc1, hc2, hc3⟩
      · have : srv.hasUser "factory" "factory_app" = true := by
          simp only [Server.hasUser, List.any_eq_true, Bool.and_eq_true, beq_iff_eq]
          exact ⟨u, hu1, hu2, hu3⟩
        rw [hu] at this
        cases this
      · have hcoll : srv.hasCollection "factory" c.name = true := by
          simp only [Server.hasCollection, List.any_eq_true, Bool.and_eq_true, beq_iff_eq]
          exact ⟨c, hc1, hc2, rfl⟩
        have hnames : createdNames (script.drop 2) = createdNames script := by decide
        obtain ⟨k, e, t, hr⟩ :=
          run_existing_collection (script.drop 2)
            ⟨"factory", { srv with users := srv.users ++ [⟨"factory", appUser⟩] }, []⟩ c.name
            (by decide) (by rw [hnames]; exact hc3) hcoll
        rw [hr]
        exact ⟨k + 1 + 1, e, t, rfl⟩
  obtain ⟨k, e, t, hk⟩ := key
  exact ⟨k, e, t, hk, fun t2 h2 => by rw [hk] at h2; cases h2⟩

/-- C5, instantiated: the server left by one successful run on a clean server
has the user and the collections, so a second run halts. -/
theorem C5_not_reentrant_witness :
    ((∃ u ∈ cleanResult.server.users, u.db = "factory" ∧ u.doc.user = "factory_app") ∨
     (∃ c ∈ cleanResult.server.collections,
        c.db = "factory" ∧ c.name ∈ createdNames script)) ∧
    ∃ k e t, run script (Shell.start cleanResult.server "test") = .halted k e t ∧
      ∀ t2, run script (Shell.start cleanResult.server "test") ≠ .completed t2 :=
  ⟨Or.inl (by decide), C5_not_reentrant cleanResult.server "test" (Or.inl (by decide))⟩

/-- C6: a failing statement halts the script, whatever the execution
environment and whichever statement fails.  The run halts at statement `k`
(counting from 0) with fault `e` in state `t` exactly when `k` is a statement
of the script, the statements before `k` all succeed and produce exactly `t`,
and statement `k` raises `e` in `t`; so the end state holds the effects of the
statements before `k` and of none after it.  When the run halts, the final
success line has not been printed.  No position is excluded: for every
statement of the script and every fault there is an environment (the modelled
one with that one operation failing) in which the run on a clean server halts
at exactly that statement with that fault. -/
theorem C6_failure_halts (env : Host) (srv : Server) (db0 : String) (k : Nat) (e : Fault)
    (t : Shell) :
    (runWith env script (Shell.start srv db0) = .halted k e t ↔
      k < script.length ∧
      runWith env (script.take k) (Shell.start srv db0) = .completed t ∧
      ∃ st, script[k]? = some st ∧ execWith env st t = .error e) ∧
    (runWith env script (Shell.start srv db0) = .halted k e t →
      Output.line successMessage ∉ t.out) ∧
    (∀ hk : k < script.length, ∃ t2,
      runWith (Host.failingOn (script.get ⟨k, hk⟩) e) script (Shell.start Server.clean db0) =
        .halted k e t2) := by
  have hiff := runWith_halted_iff env script (Shell.start srv db0) k e t
  have hlen : ∀ st, script[k]? = some st → k < script.length := by
    intro st h2
    rcases Nat.lt_or_ge k script.length with hlt | hge
    · exact hlt
    · rw [List.getElem?_eq_none hge] at h2
      cases h2
  refine ⟨?_, ?_, ?_⟩
  · constructor
    · intro h
      obtain ⟨h1, st, h2, h3⟩ := hiff.mp h
      exact ⟨hlen st h2, h1, st, h2, h3⟩
    · rintro ⟨_, h1, st, h2, h3⟩
      exact hiff.mpr ⟨h1, st, h2, h3⟩
  · intro h hm
    obtain ⟨h1, st, h2, _⟩ := hiff.mp h
    have hk := hlen st h2
    rcases runWith_completed_line _ _ _ _ _ h1 hm with hm1 | hm1
    · simp [Shell.start] at hm1
    · have hk31 : k ≤ 31 := by
        have : script.length = 32 := rfl
        omega
      have hsub : Stmt.print successMessage ∈ script.take 31 := by
        have htt : script.take k = (script.take 31).take k := by
          rw [List.take_take, Nat.min_eq_left hk31]
        rw [htt] at hm1
        exact List.mem_of_mem_take hm1
      revert hsub
      decide
  · intro hk
    have hnot : ∀ i : Fin script.length, script.get i ∉ script.take i := by decide
    have hclean : runWith Host.standard script (Shell.start Server.clean db0) =
        .completed cleanResult := by
      rw [runWith_standard, run_clean]
    obtain ⟨t2, h2⟩ := runWith_completed_take _ _ _ _ k hclean
    refine ⟨t2, (runWith_halted_iff _ script _ k e t2).mpr ⟨?_, script.get ⟨k, hk⟩, ?_, ?_⟩⟩
    · rw [runWith_failingOn_not_mem _ _ _ _ (hnot ⟨k, hk⟩)]
      exact h2
    · simp [List.getElem?_eq_getElem hk]
    · exact execWith_failingOn_self _ _ _

/-- C6, instantiated at a `createIndex` statement: when building the unique
index on `news_articles.url` (statement 13) raises a fault, the run halts
there, in the state the first 13 statements produce, without the success
line. -/
theorem C6_failure_halts_witness :
    runWith Host.urlIndexFails script (Shell.start Server.clean "test") =
      .halted 13 duplicateKey (run (script.take 13) (Shell.start Server.clean "test")).shell ∧
    (13 < script.length ∧
     runWith Host.urlIndexFails (script.take 13) (Shell.start Server.clean "test") =
       .completed (run (script.take 13) (Shell.start Server.clean "test")).shell ∧
     ∃ st, script[13]? = some st ∧
       execWith Host.urlIndexFails st
           (run (script.take 13) (Shell.start Server.clean "test")).shell =
         .error duplicateKey) ∧
    Output.line successMessage ∉
      (run (script.take 13) (Shell.start Server.clean "test")).shell.out :=
  ⟨by decide,
   (C6_failure_halts Host.urlIndexFails Server.clean "test" 13 duplicateKey
      (run (script.take 13) (Shell.start Server.clean "test")).shell).1.mp (by decide),
   (C6_failure_halts Host.urlIndexFails Server.clean "test" 13 duplicateKey
      (run (script.take 13) (Shell.start Server.clean "test")).shell).2.1 (by decide)⟩

/-- C7: every `createCollection` call passes `capped: false` and neither a
`size` nor a `max` limit, and after a run on a clean server every collection
carries these options. -/
theorem C7_all_uncapped (db0 : String) :
    (∀ p ∈ createCollectionCalls script,
      p.2.capped = some false ∧ p.2.size = none ∧ p.2.max = none) ∧
    (∀ p ∈ createCollectionCalls script, p.2.capped ≠ some true) ∧
    ∃ t, run script (Shell.start Server.clean db0) = .completed t ∧
      ∀ c ∈ t.server.collections,
        c.options.capped = some false ∧ c.options.size = none ∧ c.options.max = none :=
  ⟨by decide, by decide, cleanResult, run_clean db0, by decide⟩

/-- C8: the TTL literals of the script are the retention periods in whole
days converted to seconds: 30 days on `application_logs`, 90 days on
`user_activity_logs` and 180 days on `error_logs`. -/
theorem C8_ttl_days :
    (declaredIndexes script "application_logs").map (fun ix => ix.options.expireAfterSeconds) =
      [some (30 * 24 * 60 * 60)] ∧
    (declaredIndexes script "user_activity_logs").map (fun ix => ix.options.expireAfterSeconds) =
      [some (90 * 24 * 60 * 60)] ∧
    (declaredIndexes script "error_logs").map (fun ix => ix.options.expireAfterSeconds) =
      [some (180 * 24 * 60 * 60)] ∧
    (ttlIndexes script).map (fun p => (p.1, p.2.2)) =
      [("application_logs", 30 * 24 * 60 * 60),
       ("user_activity_logs", 90 * 24 * 60 * 60),
       ("error_logs", 180 * 24 * 60 * 60)] ∧
    (ttlIndexes script).map (fun p => p.2.2) = [2592000, 7776000, 15552000] :=
  ⟨by decide, by decide, by decide, by decide, by decide⟩

/-- C9: every collection passed to `createCollection` is listed exactly once,
no other collection is listed, all listings come after every create statement
(the first 22 statements hold no listing, the remaining ones no create), the
four news collections are listed under the first header and the three log
collections under the second, and on a clean server the console shows the
headers and, for each collection, the indexes declared on it. -/
theorem C9_listings (db0 : String) :
    (∀ n ∈ createdNames script, (listedNames script).count n = 1) ∧
    (∀ n ∈ listedNames script, n ∈ createdNames script) ∧
    (∀ st ∈ script.take 22, st.isListing = false) ∧
    (∀ st ∈ script.drop 22, st.isCreate = false) ∧
    listingGroups script =
      [(newsHeader, ["news_articles", "media_outlets", "journalists", "crawling_metadata"]),
       (logHeader, ["application_logs", "user_activity_logs", "error_logs"]),
       (successMessage, [])] ∧
    ∃ t, run script (Shell.start Server.clean db0) = .completed t ∧
      t.out =
        [.line newsHeader,
         .listing "news_articles" (declaredIndexes script "news_articles"),
         .listing "media_outlets" (declaredIndexes script "media_outlets"),
         .listing "journalists" (declaredIndexes script "journalists"),
         .listing "crawling_metadata" (declaredIndexes script "crawling_metadata"),
         .line logHeader,
         .listing "application_logs" (declaredIndexes script "application_logs"),
         .listing "user_activity_logs" (declaredIndexes script "user_activity_logs"),
         .listing "error_logs" (declaredIndexes script "error_logs"),
         .line successMessage] :=
  ⟨by decide, by decide, by decide, by decide, by decide, cleanResult, run_clean db0,
    by decide⟩

/-- C10: on a clean server every statement succeeds and the run ends with the
success message; `createUser` is called once, the names passed to
`createCollection` are pairwise distinct, every `createIndex` targets a
collection created by an earlier `createCollection`, no two `createIndex`
calls on one collection have the same key document, and no collection gets
more than one text index. -/
theorem C10_clean_run_succeeds (db0 : String) :
    (∃ t, run script (Shell.start Server.clean db0) = .completed t ∧
      t.out.getLast? = some (.line successMessage) ∧
      t.server.users.length = 1) ∧
    (createdUsers script).length = 1 ∧
    (createdNames script).Nodup ∧
    (∀ i : Fin script.length, ∀ c ∈ indexTarget (script.get i),
      c ∈ createdNames (script.take i)) ∧
    ((createIndexCalls script).map fun p => (p.1, p.2.key)).Nodup ∧
    (((createIndexCalls script).filter fun p => isTextKey p.2.key).map Prod.fst).Nodup :=
  ⟨⟨cleanResult, run_clean db0, by decide, by decide⟩, by decide, by decide, by decide,
    by decide, by decide⟩

end InitMongo
